import Mathlib

/-!
# Verification of the skill security scanner

Shallow embedding of `security-scanner/scripts/scanner.py` and the five
detectors under `security-scanner/scripts/detectors/`, together with theorems
settling the specification claims about them.

Conventions of the embedding:
* Python strings are Lean `String`s; `len`, `split('\n')`, slicing and
  f-strings are the corresponding `String` operations (both count Unicode
  code points).
* Severities are kept as the Chinese strings used by the code
  (`严重`/`高`/`中`/`低`).
* `ast.parse` is external to the scanner; its outcome is an explicit
  `ParseResult` input (all five detectors parse the same source text, hence
  see the same outcome).
* Python's `sorted(xs, key=k)` is a stable sort by `k`; it is modelled by the
  stable insertion sort `pySorted` below (stable sorts by the same key agree).
-/

namespace SkillScanner

/-! ## Generic list helpers -/

/-- `concatMap f l` is the concatenation of `f a` over `a ∈ l` in order
(the shape of a Python loop appending findings). -/
def concatMap (f : α → List β) : List α → List β
  | [] => []
  | a :: l => f a ++ concatMap f l


/-! ## String helpers (Python semantics) -/

/-- Does `hay` start with `needle` (`str.startswith` on exploded strings)? -/
def startsWithL : List Char → List Char → Bool
  | [], _ => true
  | _ :: _, [] => false
  | n :: ns, h :: hs => n = h && startsWithL ns hs

/-- Substring containment, i.e. Python's `needle in hay` for strings. -/
def infixOfL (needle : List Char) : List Char → Bool
  | [] => startsWithL needle []
  | c :: rest => startsWithL needle (c :: rest) || infixOfL needle rest

/-- Python's `needle in hay` on `String`s. -/
def strContains (hay needle : String) : Bool :=
  infixOfL needle.toList hay.toList


/-- ASCII lower-casing of one character (`str.lower` on the ASCII inputs the
claims involve). -/
def pyLowerChar (c : Char) : Char :=
  if 'A' ≤ c && c ≤ 'Z' then Char.ofNat (c.toNat + 32) else c

/-- ASCII upper-casing of one character. -/
def pyUpperChar (c : Char) : Char :=
  if 'a' ≤ c && c ≤ 'z' then Char.ofNat (c.toNat - 32) else c

/-- `s.lower()`. -/
def strLower (s : String) : String := String.mk (s.toList.map pyLowerChar)

/-- `s.upper()`. -/
def strUpper (s : String) : String := String.mk (s.toList.map pyUpperChar)

/-- `s.split(sep)` for a one-character separator (the code only splits on
`'\n'` and `'.'`): splitting keeps empty pieces, and the empty string yields
`[""]`. -/
def pySplit (sep : Char) (s : String) : List String :=
  go s.toList []
where
  go : List Char → List Char → List String
    | [], acc => [String.mk acc.reverse]
    | c :: rest, acc =>
      if c = sep then String.mk acc.reverse :: go rest []
      else go rest (c :: acc)

/-- `'.'.join(parts)`. -/
def joinDots : List String → String
  | [] => ""
  | [x] => x
  | x :: rest => x ++ "." ++ joinDots rest

/-- The whitespace characters stripped by Python's `str.strip()`
(ASCII subset; the claims involve only ASCII source text). -/
def pyIsSpace (c : Char) : Bool :=
  c = ' ' || c = '\t' || c = '\n' || c = '\r' || c = '\x0b' || c = '\x0c'

/-- `line.strip().startswith('#')`: the first non-whitespace character
of the line is `#`. -/
def strippedStartsHash (line : String) : Bool :=
  match line.toList.dropWhile pyIsSpace with
  | '#' :: _ => true
  | _ => false

/-! ## Findings and severity order

`Finding.to_dict` in every detector produces a dict with keys
`detector`, `name`, `severity`, `line`, `col`, `details`; the structure below
is that dict. -/

structure Finding where
  detector : String
  name : String
  severity : String
  line : Nat
  col : Nat
  details : String
deriving DecidableEq, Repr

/-- `SkillScanner._severity_sort_key`'s table
`{'严重': 0, '高': 1, '中': 2, '低': 3}` with `.get(severity, 4)`. -/
def severityOrder (s : String) : Nat :=
  if s = "严重" then 0
  else if s = "高" then 1
  else if s = "中" then 2
  else if s = "低" then 3
  else 4

/-- `_severity_sort_key` applied to a finding dict. Finding dicts always carry
a `severity` key (`to_dict` stores one), so `item.get('severity', '低')` is the
finding's severity. -/
def findingKey (f : Finding) : Nat := severityOrder f.severity

/-! ## Python's `sorted` (stable sort by key) -/

/-- Insert `x` into `l` before the first element of strictly larger-or-equal …
before the first element `y` with `key x ≤ key y`; used by `pySorted`. -/
def insertByKey (key : α → Nat) (x : α) : List α → List α
  | [] => [x]
  | y :: ys => if key x ≤ key y then x :: y :: ys else y :: insertByKey key x ys

/-- Stable insertion sort by `key`: the semantics of Python's
`sorted(l, key=key)` (stable sorts by the same key coincide). -/
def pySorted (key : α → Nat) : List α → List α
  | [] => []
  | x :: xs => insertByKey key x (pySorted key xs)

/-! ## The Python AST fragment the detectors distinguish

Mutual inductive mirror of the `ast` nodes the five detectors inspect.
Nodes the detectors do not special-case are represented by the generic
`other` expression / `compound` statement carrying their child nodes in
field order (the visitors treat them by `generic_visit`, i.e. plain
recursion into the children, so only the child sequence matters).
Line/column fields mirror `node.lineno` / `node.col_offset`. -/

mutual

inductive PyExpr : Type where
  | name (id : String) (lineno col : Nat)
  | attr (value : PyExpr) (attrName : String) (lineno col : Nat)
  | constStr (s : String) (lineno col : Nat)
  | constOther (lineno col : Nat)
  | call (func : PyExpr) (args : PyExprs) (keywords : PyKws) (lineno col : Nat)
  | subscript (value : PyExpr) (slice : PyExpr) (lineno col : Nat)
  | joinedStr (values : PyExprs) (lineno col : Nat)
  | formattedValue (value : PyExpr) (lineno col : Nat)
  | listComp (elt : PyExpr) (generators : PyComps) (lineno col : Nat)
  | other (children : PyExprs) (lineno col : Nat)

/-- A list of expressions (e.g. `node.args`, `node.values`, `node.targets`). -/
inductive PyExprs : Type where
  | nil
  | cons (head : PyExpr) (tail : PyExprs)

/-- `node.keywords`: each `ast.keyword` has fields `arg` (`None` for `**kw`)
and `value`. -/
inductive PyKws : Type where
  | nil
  | cons (arg : Option String) (value : PyExpr) (tail : PyKws)

/-- `node.generators`: each `ast.comprehension` has fields
`target`, `iter`, `ifs`. -/
inductive PyComps : Type where
  | nil
  | cons (target : PyExpr) (iter : PyExpr) (ifs : PyExprs) (tail : PyComps)

end

mutual

/-- Statements. `importStmt` keeps the `alias.name`s of an `ast.Import`
(`asname` is never read by the detectors); `importFrom` keeps `node.module`
(`None` for `from . import x`); `compound` stands for any other statement
(`If`, `For`, `FunctionDef`, …) with its child expressions and child
statements in field order. -/
inductive PyStmt : Type where
  | exprStmt (value : PyExpr) (lineno col : Nat)
  | assign (targets : PyExprs) (value : PyExpr) (lineno col : Nat)
  | importStmt (names : List String) (lineno col : Nat)
  | importFrom (module : Option String) (lineno col : Nat)
  | compound (exprs : PyExprs) (body : PyStmts) (lineno col : Nat)

inductive PyStmts : Type where
  | nil
  | cons (head : PyStmt) (tail : PyStmts)

end

/-- An `ast.Module` is its statement list. -/
structure Module where
  body : PyStmts

/-- Convenience conversion for writing concrete syntax trees. -/
def exprsOf : List PyExpr → PyExprs
  | [] => .nil
  | e :: es => .cons e (exprsOf es)

def kwsOf : List (Option String × PyExpr) → PyKws
  | [] => .nil
  | (a, v) :: rest => .cons a v (kwsOf rest)

def stmtsOf : List PyStmt → PyStmts
  | [] => .nil
  | s :: rest => .cons s (stmtsOf rest)

mutual

/-- The expression nodes visited below `e` (including `e`), in the order
`ast.NodeVisitor` reaches them: the node itself first, then its children
field by field (every detector's `visit_X` appends its findings and then
calls `generic_visit`, so findings are emitted in this preorder). -/
def preorder : PyExpr → List PyExpr
  | e@(.name ..) => [e]
  | e@(.constStr ..) => [e]
  | e@(.constOther ..) => [e]
  | e@(.attr v _ _ _) => e :: preorder v
  | e@(.call f args kws _ _) =>
    e :: (preorder f ++ preorderExprs args ++ preorderKws kws)
  | e@(.subscript v s _ _) => e :: (preorder v ++ preorder s)
  | e@(.joinedStr vs _ _) => e :: preorderExprs vs
  | e@(.formattedValue v _ _) => e :: preorder v
  | e@(.listComp elt comps _ _) => e :: (preorder elt ++ preorderComps comps)
  | e@(.other children _ _) => e :: preorderExprs children

def preorderExprs : PyExprs → List PyExpr
  | .nil => []
  | .cons e es => preorder e ++ preorderExprs es

def preorderKws : PyKws → List PyExpr
  | .nil => []
  | .cons _ v rest => preorder v ++ preorderKws rest

def preorderComps : PyComps → List PyExpr
  | .nil => []
  | .cons t it ifs rest =>
    preorder t ++ preorder it ++ preorderExprs ifs ++ preorderComps rest

end

/-- `_get_function_name`'s `Attribute` walk: collect `attr`s inward, append
the base `Name`'s id if the chain ends in a `Name`, and join reversed with
dots (identical in all five detectors). -/
def dottedName : PyExpr → List String → String
  | .attr v a _ _, acc => dottedName v (a :: acc)
  | .name id _ _, acc => joinDots (id :: acc)
  | _, acc => joinDots acc

/-- `_get_function_name(node)` applied to `node.func`. -/
def getFuncName : PyExpr → String
  | .name id _ _ => id
  | .attr v a l c => dottedName (.attr v a l c) []
  | _ => ""

/-- `True` exactly for `ast.Attribute` nodes (`isinstance(node.func, ast.Attribute)`). -/
def isAttributeNode : PyExpr → Bool
  | .attr .. => true
  | _ => false

/-! ## The three suspicious-URL regexes (`NetworkOpsDetector.SUSPICIOUS_URL_PATTERNS`)

`re.search(p, s)` succeeds iff the pattern matches starting at some index of
`s`; each matcher below implements one pattern's matching relation directly
(ASCII inputs; `\d` is `Char.isDigit`, `\s` is `pyIsSpace`). -/

/-- All suffixes of a character list: the candidate start positions of
`re.search`. -/
def allSuffixes : List Char → List (List Char)
  | [] => [[]]
  | c :: cs => (c :: cs) :: allSuffixes cs

/-- Consume an exact literal; `none` if it is not a prefix. -/
def consumeLit : List Char → List Char → Option (List Char)
  | [], cs => some cs
  | _ :: _, [] => none
  | p :: ps, c :: cs => if c = p then consumeLit ps cs else none

/-- Consume `https?://` (the two alternatives are mutually exclusive, so
trying them in turn is the regex's full backtracking). -/
def consumeScheme (cs : List Char) : Option (List Char) :=
  match consumeLit "http://".toList cs with
  | some r => some r
  | none => consumeLit "https://".toList cs

/-- Consume exactly `n` digits. -/
def consumeDigits : Nat → List Char → Option (List Char)
  | 0, cs => some cs
  | _ + 1, [] => none
  | n + 1, c :: cs => if c.isDigit then consumeDigits n cs else none

/-- Remainders after `\d{1,3}\.`: the existentially possible digit-group
lengths followed by a literal dot. -/
def groupThenDot (cs : List Char) : List (List Char) :=
  [1, 2, 3].filterMap fun k =>
    match consumeDigits k cs with
    | some ('.' :: r) => some r
    | _ => none

/-- A final `\d{1,3}` matches iff at least one digit follows. -/
def leadDigit : List Char → Bool
  | c :: _ => c.isDigit
  | [] => false

/-- `https?://\d{1,3}\.\d{1,3}\.\d{1,3}\.\d{1,3}` anchored at the head. -/
def ipv4At (cs : List Char) : Bool :=
  match consumeScheme cs with
  | none => false
  | some r =>
    (groupThenDot r).any fun r2 =>
      (groupThenDot r2).any fun r3 =>
        (groupThenDot r3).any leadDigit

/-- `re.search` for the direct-IP pattern. -/
def reSearchIPv4 (s : String) : Bool := (allSuffixes s.toList).any ipv4At

/-- The character class `[^\s/:]`. -/
def hostChar (c : Char) : Bool := !pyIsSpace c && c ≠ '/' && c ≠ ':'

/-- `\d{2,5}` with nothing after it: at least two digits follow. -/
def twoDigits : List Char → Bool
  | a :: b :: _ => a.isDigit && b.isDigit
  | _ => false

/-- After at least one host character: keep consuming `[^\s/:]`; the class
excludes `:`, so the host can only end at the first `:`, where `\d{2,5}`
must match. -/
def hostTail : List Char → Bool
  | ':' :: r => twoDigits r
  | c :: r => hostChar c && hostTail r
  | [] => false

/-- `https?://[^\s/:]+:\d{2,5}` anchored at the head. -/
def portAt (cs : List Char) : Bool :=
  match consumeScheme cs with
  | none => false
  | some r =>
    match r with
    | c :: rest => hostChar c && hostTail rest
    | [] => false

/-- `re.search` for the explicit-port pattern. -/
def reSearchPort (s : String) : Bool := (allSuffixes s.toList).any portAt

/-- `.*\.onion`: skip any number of non-newline characters (`.` does not
match `\n`), then the literal `.onion`. -/
def dotStarOnion : List Char → Bool
  | [] => startsWithL ".onion".toList []
  | c :: rest =>
    startsWithL ".onion".toList (c :: rest) || (c ≠ '\n' && dotStarOnion rest)

/-- `https?://.*\.onion` anchored at the head. -/
def onionAt (cs : List Char) : Bool :=
  match consumeScheme cs with
  | none => false
  | some r => dotStarOnion r

/-- `re.search` for the Tor pattern. -/
def reSearchOnion (s : String) : Bool := (allSuffixes s.toList).any onionAt

/-! ## `NetworkOpsDetector` -/

/-- `NETWORK_FUNCTIONS`: name ↦ (severity, details). -/
def NETWORK_FUNCTIONS : List (String × String × String) :=
  [("requests.get", "中", "HTTP GET 请求"),
   ("requests.post", "中", "HTTP POST 请求"),
   ("requests.put", "中", "HTTP PUT 请求"),
   ("requests.delete", "中", "HTTP DELETE 请求"),
   ("requests.patch", "中", "HTTP PATCH 请求"),
   ("requests.request", "中", "HTTP 请求"),
   ("urllib.request.urlopen", "中", "URL 打开请求"),
   ("urllib.request.Request", "中", "URL 请求构造"),
   ("urllib.request.urlretrieve", "中", "URL 文件下载"),
   ("httpx.get", "中", "HTTP GET 请求"),
   ("httpx.post", "中", "HTTP POST 请求"),
   ("httpx.request", "中", "HTTP 请求"),
   ("socket.socket", "中", "创建 socket 连接"),
   ("socket.connect", "中", "socket 连接"),
   ("os.popen", "高", "通过命令执行网络操作，可能被滥用")]

/-- Dict lookup (`func_name in NETWORK_FUNCTIONS` + indexing; keys are
distinct, so first-match lookup is the dict). -/
def tableLookup (table : List (String × String × String)) (fn : String) :
    Option (String × String) :=
  (table.find? fun e => e.1 == fn).map (·.2)

/-- `f'{desc}: {url[:50]}...' if len(url) > 50 else f'{desc}: {url}'`. -/
def urlDetails (desc url : String) : String :=
  if url.length > 50 then desc ++ ": " ++ String.mk (url.toList.take 50) ++ "..."
  else desc ++ ": " ++ url

/-- `NetworkOpsDetector._check_suspicious_url`: first matching pattern in the
declared order wins (`return` inside the loop). -/
def checkSuspiciousUrl (url : String) (line : Nat) : Option Finding :=
  if reSearchIPv4 url then
    some ⟨"network_ops", "suspicious_url", "中", line, 0, urlDetails "直接 IP 地址访问" url⟩
  else if reSearchPort url then
    some ⟨"network_ops", "suspicious_url", "中", line, 0, urlDetails "非标准端口访问" url⟩
  else if reSearchOnion url then
    some ⟨"network_ops", "suspicious_url", "中", line, 0, urlDetails "Tor 网络访问" url⟩
  else none

/-- The loop `for arg in node.args:` of the URL scan: each positional
`ast.Constant` string argument is checked in order. -/
def urlArgsGo (lineno : Nat) : PyExprs → List Finding
  | .nil => []
  | .cons a rest =>
    (match a with
     | .constStr s _ _ => (checkSuspiciousUrl s lineno).toList
     | _ => []) ++ urlArgsGo lineno rest

/-- The URL findings contributed by one `visit_Call`: only when `node.func`
is an `ast.Attribute` are the positional string arguments checked. -/
def urlArgFindings (f : PyExpr) (args : PyExprs) (lineno : Nat) : List Finding :=
  if isAttributeNode f then urlArgsGo lineno args else []

/-- The finding of the `NETWORK_FUNCTIONS` table lookup at a call node. -/
def networkTableFinding (f : PyExpr) (l c : Nat) : List Finding :=
  match tableLookup NETWORK_FUNCTIONS (getFuncName f) with
  | some (sev, det) => [⟨"network_ops", getFuncName f, sev, l, c, det⟩]
  | none => []

/-- `NetworkOpsDetector.visit_Call` (the findings appended at this node):
table lookup on the dotted function name, then the string-argument URL scan. -/
def networkLocalE : PyExpr → List Finding
  | .call f args _kws l c => networkTableFinding f l c ++ urlArgFindings f args l
  | _ => []

/-- `visit_Import` / `visit_ImportFrom` of `NetworkOpsDetector`. -/
def networkLocalS : PyStmt → List Finding
  | .importStmt names l c =>
    names.filterMap fun nm =>
      if nm ∈ ["socket", "http", "ftplib", "smtplib"] then
        some ⟨"network_ops", "import " ++ nm, "低", l, c, "导入网络库 " ++ nm⟩
      else none
  | .importFrom (some m) l c =>
    if m ∈ ["socket", "urllib", "http", "requests", "httpx"] then
      [⟨"network_ops", "from " ++ m ++ " import ...", "低", l, c, "从网络库 " ++ m ++ " 导入"⟩]
    else []
  | _ => []

/-! ## `DangerousCallsDetector` -/

/-- `DANGEROUS_FUNCTIONS`: name ↦ (severity, details). -/
def DANGEROUS_FUNCTIONS : List (String × String × String) :=
  [("eval", "严重", "动态代码执行，可能导致任意代码执行漏洞"),
   ("exec", "严重", "动态代码执行，可能导致任意代码执行漏洞"),
   ("compile", "严重", "编译代码对象，可能与 exec/eval 配合使用"),
   ("__import__", "高", "动态导入模块，可能导入恶意代码"),
   ("os.system", "严重", "执行系统命令，可能导致命令注入"),
   ("subprocess.run", "严重", "执行子进程命令，可能导致命令注入"),
   ("subprocess.call", "严重", "执行子进程命令，可能导致命令注入"),
   ("subprocess.Popen", "严重", "执行子进程命令，可能导致命令注入"),
   ("subprocess.check_output", "严重", "执行子进程命令，可能导致命令注入"),
   ("pickle.loads", "严重", "反序列化数据，可能导致任意代码执行"),
   ("pickle.load", "严重", "反序列化数据，可能导致任意代码执行"),
   ("marshal.loads", "严重", "反序列化数据，可能导致任意代码执行"),
   ("marshal.load", "严重", "反序列化数据，可能导致任意代码执行"),
   ("globals", "中", "访问全局变量字典，可能被用于代码注入"),
   ("locals", "中", "访问局部变量字典，可能被用于代码注入"),
   ("vars", "低", "访问变量字典，需结合上下文判断")]

/-- `DangerousCallsDetector.visit_Call`. -/
def dangerousLocalE : PyExpr → List Finding
  | .call f _args _kws l c =>
    (match tableLookup DANGEROUS_FUNCTIONS (getFuncName f) with
     | some (sev, det) => [⟨"dangerous_calls", getFuncName f, sev, l, c, det⟩]
     | none => [])
  | _ => []

/-! ## `FileOpsDetector` -/

/-- `os.path.expanduser`, parameterised by the home directory: a leading
`~/` (or a bare `~`) is replaced by `home`; other paths are returned
unchanged. (The `~user` form, which consults the password database, is not
used by any claim and is modelled as the unchanged path.) -/
def expanduser (home path : String) : String :=
  if path = "~" then home
  else if startsWithL "~/".toList path.toList then home ++ String.mk (path.toList.drop 1)
  else path

/-- `SENSITIVE_PATTERNS`: (fragment, description, severity), in declaration
order. -/
def SENSITIVE_PATTERNS : List (String × String × String) :=
  [("~/.ssh/", "SSH 密钥目录", "严重"),
   (".ssh", "SSH 密钥目录", "严重"),
   ("~/.aws/", "AWS 凭证目录", "严重"),
   (".aws", "AWS 凭证目录", "严重"),
   ("id_rsa", "SSH 私钥文件", "严重"),
   ("id_ed25519", "SSH 私钥文件", "严重"),
   ("known_hosts", "SSH 已知主机文件", "高"),
   ("credentials", "凭证文件", "高"),
   (".env", "环境变量文件", "中"),
   (".secret", "密钥文件", "高"),
   (".token", "令牌文件", "高"),
   (".key", "密钥文件", "高"),
   ("password", "密码文件", "高"),
   ("~/.claude/", "Claude Code 配置目录", "高"),
   ("~/.config/", "系统配置目录", "中")]

/-- The table loop of `_check_sensitive_path`: scan in order, stop at the
first fragment contained in the expanded path (`return` inside the loop). -/
def sensitiveGo (path : String) (line col : Nat) (expanded : String) :
    List (String × String × String) → List Finding
  | [] => []
  | (pat, desc, sev) :: rest =>
    if strContains expanded (strLower pat) then
      [⟨"file_ops", "sensitive_file", sev, line, col,
        "访问敏感文件 (" ++ desc ++ "): " ++ path⟩]
    else sensitiveGo path line col expanded rest

/-- `FileOpsDetector._check_sensitive_path`: lower-case the literal, expand a
leading `~` (`os.path.expanduser(path.lower())`), then scan the table. -/
def checkSensitivePath (home path : String) (line col : Nat) : List Finding :=
  sensitiveGo path line col (expanduser home (strLower path)) SENSITIVE_PATTERNS

/-- `FileOpsDetector._is_sensitive_env_key`. -/
def isSensitiveEnvKey (key : String) : Bool :=
  ["key", "secret", "token", "password", "credential",
   "api", "aws", "ssh", "private", "auth"].any fun kw =>
    strContains (strLower key) kw

/-- `_check_file_access`: first positional argument must be a string constant
(`ast.Constant`/`ast.Str`) and truthy (non-empty). -/
def checkFileAccess (home : String) (args : PyExprs) (line col : Nat) : List Finding :=
  match args with
  | .cons (.constStr s _ _) _ =>
    if s ≠ "" then checkSensitivePath home s line col else []
  | _ => []

/-- `_check_env_access`. -/
def checkEnvAccess (args : PyExprs) (line col : Nat) : List Finding :=
  match args with
  | .cons (.constStr s _ _) _ =>
    if s ≠ "" && isSensitiveEnvKey s then
      [⟨"file_ops", "env_access", "高", line, col, "读取敏感环境变量: " ++ s⟩]
    else []
  | _ => []

/-- `FileOpsDetector.visit_Call` and `visit_Subscript`. -/
def fileOpsLocalE (home : String) : PyExpr → List Finding
  | .call f args _kws l c =>
    if getFuncName f = "open" || getFuncName f = "Path.open" then
      checkFileAccess home args l c
    else if getFuncName f = "os.getenv" || getFuncName f = "os.environ.get" ||
        getFuncName f = "os.environ.__getitem__" then
      checkEnvAccess args l c
    else []
  | .subscript (.attr (.name "os" _ _) "environ" _ _) sl l c =>
    (match sl with
     | .constStr key _ _ =>
       if key ≠ "" && isSensitiveEnvKey key then
         [⟨"file_ops", "env_access", "高", l, c, "读取敏感环境变量: " ++ key⟩]
       else []
     | _ => [])
  | _ => []

/-! ## `ObfuscationDetector` -/

/-- `True` for a `Call` whose `func` is the bare name `chr`
(`_count_chr_in_scope`'s test). -/
def isChrCall : PyExpr → Bool
  | .call (.name "chr" _ _) _ _ _ _ => true
  | _ => false

/-- `_count_chr_in_scope`: the number of `chr(...)` calls in the subtree of
`node`, itself included (`ast.walk` order does not affect the count). -/
def countChr (e : PyExpr) : Nat :=
  ((preorder e).filter isChrCall).length

/-- `visit_JoinedStr`'s body: one finding per `FormattedValue` whose value is
a `chr` call (by `_get_function_name`). -/
def joinedStrFindings (lineno col : Nat) : PyExprs → List Finding
  | .nil => []
  | .cons v rest =>
    (match v with
     | .formattedValue (.call f _ _ _ _) _ _ =>
       if getFuncName f = "chr" then
         [⟨"obfuscation", "chr_fstring", "高", lineno, col,
           "f-string 中使用 chr() 构造字符串，典型混淆技术"⟩]
       else []
     | _ => []) ++ joinedStrFindings lineno col rest

/-- `ObfuscationDetector`'s `visit_Call`, `visit_JoinedStr`, `visit_ListComp`. -/
def obfuscationLocalE : PyExpr → List Finding
  | e@(.call f _args _kws l c) =>
    if getFuncName f = "base64.b64decode" || getFuncName f = "base64.standard_b64decode" then
      [⟨"obfuscation", "base64_decode", "高", l, c,
        "Base64 解码操作，可能用于解码混淆的代码或数据"⟩]
    else if getFuncName f = "chr" || getFuncName f = "ord" then
      -- `_check_char_conversion`: only `chr` is inspected further
      if getFuncName f = "chr" && countChr e > 3 then
        [⟨"obfuscation", "multiple_chr", "高", l, c,
          "发现 " ++ toString (countChr e) ++ " 个 chr() 调用，可能用于混淆字符串"⟩]
      else []
    else if getFuncName f = "compile" then
      [⟨"obfuscation", "compile_call", "高", l, c,
        "动态编译代码，常与混淆技术结合使用"⟩]
    else if getFuncName f = "bytes.fromhex" || getFuncName f = "bytearray.fromhex" then
      [⟨"obfuscation", "hex_bytes", "高", l, c,
        "十六进制字节构造，可能用于混淆数据"⟩]
    else []
  | .joinedStr vs l c => joinedStrFindings l c vs
  | .listComp (.call f _ _ _ _) _comps l c =>
    if getFuncName f = "chr" then
      [⟨"obfuscation", "chr_listcomp", "高", l, c,
        "列表推导式使用 chr() 构造字符串，典型混淆技术"⟩]
    else []
  | _ => []

/-- One `long_line` finding (`_check_long_lines`'s append). -/
def mkLongLine (i len : Nat) : Finding :=
  ⟨"obfuscation", "long_line", "低", i, 0,
   "超长代码行 (" ++ toString len ++ " 字符)，可能包含混淆代码"⟩

/-- `ObfuscationDetector._check_long_lines`: enumerate
`source_code.split('\n')` from 1; skip lines whose stripped text starts with
`#`; flag lines longer than 200 characters. -/
def checkLongLines (src : String) : List Finding :=
  go 1 (pySplit '\n' src)
where
  go : Nat → List String → List Finding
    | _, [] => []
    | i, line :: rest =>
      if strippedStartsHash line then go (i + 1) rest
      else if line.length > 200 then mkLongLine i line.length :: go (i + 1) rest
      else go (i + 1) rest

/-! ## `DataExfilDetector` -/

/-- `any(kw in var_name for kw in suspicious_keywords)` on the lower-cased
identifier. -/
def isSensitiveId (id : String) : Bool :=
  ["password", "token", "key", "secret", "credential"].any fun kw =>
    strContains (strLower id) kw

/-- `func_name.split('.')[1].upper()` (total version; every caller passes a
dotted name). -/
def methodUpper (funcName : String) : String :=
  strUpper (((pySplit '.' funcName).drop 1).headD "")

/-- The Critical `http_exfil` finding. -/
def httpExfilFinding (funcName id : String) (line col : Nat) : Finding :=
  ⟨"data_exfil", "http_exfil", "严重", line, col,
   "HTTP " ++ methodUpper funcName ++ " 发送可能包含敏感数据的变量: " ++ id⟩

/-- The Medium `http_data_send` finding. -/
def httpDataSendFinding (funcName : String) (line col : Nat) : Finding :=
  ⟨"data_exfil", "http_data_send", "中", line, col,
   "HTTP " ++ methodUpper funcName ++ " 请求携带数据，需确认目的地"⟩

/-- `isinstance(x, ast.Name) and x.id`: the identifier of a bare name. -/
def asNameId : PyExpr → Option String
  | .name id _ _ => some id
  | _ => none

/-- The loop of `_check_http_data_send`: walk the keywords tracking
`has_data_payload`; on the first `data=`/`json=` keyword whose value is a
bare `Name` with a sensitive identifier, emit Critical and return; after the
loop emit Medium iff a payload keyword was seen. -/
def httpSendLoop (funcName : String) (line col : Nat) :
    PyKws → Bool → List Finding
  | .nil, hasData => if hasData then [httpDataSendFinding funcName line col] else []
  | .cons arg v rest, hasData =>
    if arg == some "data" || arg == some "json" then
      match asNameId v with
      | some id =>
        if isSensitiveId id then [httpExfilFinding funcName id line col]
        else httpSendLoop funcName line col rest true
      | none => httpSendLoop funcName line col rest true
    else httpSendLoop funcName line col rest hasData

/-- `DataExfilDetector.visit_Call`. -/
def dataExfilLocalE : PyExpr → List Finding
  | .call f _args kws l c =>
    if getFuncName f = "requests.post" || getFuncName f = "requests.put" ||
        getFuncName f = "requests.patch" then
      httpSendLoop (getFuncName f) l c kws false
    else if getFuncName f = "socket.send" || getFuncName f = "socket.sendall" ||
        getFuncName f = "socket.sendto" then
      [⟨"data_exfil", "socket_send", "严重", l, c,
        "Socket 数据发送，需确认目的地是否安全"⟩]
    else []
  | _ => []

/-- `DataExfilDetector.visit_Assign`: one finding per `Name` target whose
lower-cased id is in the suspicious list. -/
def dataExfilLocalS : PyStmt → List Finding
  | .assign targets _v l c => go targets l c
  | _ => []
where
  go : PyExprs → Nat → Nat → List Finding
    | .nil, _, _ => []
    | .cons t rest, l, c =>
      (match t with
       | .name id _ _ =>
         if strLower id ∈ ["webhook_url", "exfil_url", "c2_url", "remote_url"] then
           [⟨"data_exfil", "suspicious_var", "高", l, c,
             "可疑变量名: " ++ id ++ "，可能用于数据外泄"⟩]
         else []
       | _ => []) ++ go rest l c

/-! ## Running a detector over a module

A detector is its per-node finding functions (`locS` for statement handlers,
`locE` for expression handlers); `generic_visit` recursion makes the whole
run the concatenation of the per-node findings in visit order. -/

/-- The findings a detector emits while visiting the expression tree `e`. -/
def exprTreeFindings (locE : PyExpr → List Finding) (e : PyExpr) : List Finding :=
  concatMap locE (preorder e)

def exprsTreeFindings (locE : PyExpr → List Finding) (es : PyExprs) : List Finding :=
  concatMap locE (preorderExprs es)

mutual

/-- Visit one statement: its own handler's findings, then its child nodes in
field order. -/
def stmtFindings (locS : PyStmt → List Finding) (locE : PyExpr → List Finding) :
    PyStmt → List Finding
  | s@(.exprStmt v _ _) => locS s ++ exprTreeFindings locE v
  | s@(.assign ts v _ _) =>
    locS s ++ exprsTreeFindings locE ts ++ exprTreeFindings locE v
  | s@(.importStmt ..) => locS s
  | s@(.importFrom ..) => locS s
  | s@(.compound es body _ _) =>
    locS s ++ exprsTreeFindings locE es ++ stmtsFindings locS locE body

def stmtsFindings (locS : PyStmt → List Finding) (locE : PyExpr → List Finding) :
    PyStmts → List Finding
  | .nil => []
  | .cons s rest => stmtFindings locS locE s ++ stmtsFindings locS locE rest

end

/-- A whole detector run over a parsed module (`self.visit(tree)`). -/
def detectorRun (locS : PyStmt → List Finding) (locE : PyExpr → List Finding)
    (m : Module) : List Finding :=
  stmtsFindings locS locE m.body

/-- A statement handler that matches nothing (detectors without statement
`visit_X` methods). -/
def noLocalS : PyStmt → List Finding := fun _ => []

/-! ## `detect()` and the parse outcome

`ast.parse(self.source_code)` either yields a tree or raises `SyntaxError`
(with `e.lineno`, `e.offset`, `e.msg`, any of which may be `None`). All five
detectors parse the same source, so one `ParseResult` describes the file. -/

inductive ParseResult : Type where
  | ok (m : Module)
  | err (lineno offset : Option Nat) (msg : String)

/-- `DangerousCallsDetector.detect`: on `SyntaxError` it records a single
synthetic finding (`e.lineno or 0`, `e.offset or 0`). -/
def dangerousDetect : ParseResult → List Finding
  | .ok m => detectorRun noLocalS dangerousLocalE m
  | .err l c msg =>
    [⟨"dangerous_calls", "SyntaxError", "低", l.getD 0, c.getD 0, "语法错误: " ++ msg⟩]

/-- `NetworkOpsDetector.detect`: `SyntaxError` is swallowed. -/
def networkDetect : ParseResult → List Finding
  | .ok m => detectorRun networkLocalS networkLocalE m
  | .err _ _ _ => []

/-- `FileOpsDetector.detect`: `SyntaxError` is swallowed. -/
def fileOpsDetect (home : String) : ParseResult → List Finding
  | .ok m => detectorRun noLocalS (fileOpsLocalE home) m
  | .err _ _ _ => []

/-- `ObfuscationDetector.detect`: visit the tree, then `_check_long_lines()`,
both inside the `try`; `SyntaxError` is swallowed, so a parse failure skips
the long-line pass as well. -/
def obfuscationDetect (src : String) : ParseResult → List Finding
  | .ok m => detectorRun noLocalS obfuscationLocalE m ++ checkLongLines src
  | .err _ _ _ => []

/-- `DataExfilDetector.detect`: `SyntaxError` is swallowed. -/
def dataExfilDetect : ParseResult → List Finding
  | .ok m => detectorRun dataExfilLocalS dataExfilLocalE m
  | .err _ _ _ => []

/-! ## `SkillScanner` -/

/-- One Python file under `scripts/`: either its text was read (with its
parse outcome) or `read_text` raised (`_scan_file` then returns `[]`). -/
inductive FileInput : Type where
  | readable (pr : ParseResult) (src : String)
  | unreadable

/-- `SkillScanner._scan_file`: run the five detectors in declaration order
and concatenate their findings (`findings.append(finding.to_dict())`). -/
def scanFileFindings (home : String) : FileInput → List Finding
  | .unreadable => []
  | .readable pr src =>
    dangerousDetect pr ++ networkDetect pr ++ fileOpsDetect home pr ++
      obfuscationDetect src pr ++ dataExfilDetect pr

/-- One skill directory: its name, the description shown in the report
(`_get_skill_description`; its extraction from `SKILL.md` does not matter to
any claim and is taken as given), whether `scripts/` exists, and the `*.py`
files under it in `rglob` discovery order. -/
structure SkillInput where
  name : String
  description : String
  hasScriptsDir : Bool
  files : List FileInput

/-- The dict `{'skill': …, 'description': …, 'findings': …}` built by
`scan_skill` (it has no `severity` key). -/
structure SkillResult where
  skill : String
  description : String
  findings : List Finding
deriving DecidableEq, Repr

/-- `SkillScanner.scan_skill`: without a `scripts/` dir the findings list is
empty; otherwise all files' findings are concatenated and stably sorted by
`_severity_sort_key`. -/
def scanSkill (home : String) (s : SkillInput) : SkillResult :=
  if s.hasScriptsDir then
    ⟨s.name, s.description, pySorted findingKey (concatMap (scanFileFindings home) s.files)⟩
  else ⟨s.name, s.description, []⟩

/-- `_severity_sort_key` applied to a skill-result dict: the dict has keys
`skill`/`description`/`findings` only, so `item.get('severity', '低')`
returns the default `'低'` and the key is `severityOrder "低" = 3` for every
skill. -/
def severitySortKeySkill (_r : SkillResult) : Nat := severityOrder "低"

/-- The `skills_dir` seen by `scan_all`: missing, or present with its
non-hidden subdirectories in `iterdir` discovery order. -/
inductive RootDir : Type where
  | missing
  | present (skills : List SkillInput)

/-- `SkillScanner.scan_all`: a missing root prints an error and returns `[]`;
otherwise every skill is scanned (`scan_skill` always returns a non-empty,
hence truthy, dict) and the results are sorted with `_severity_sort_key`. -/
def scanAll (home : String) : RootDir → List SkillResult
  | .missing => []
  | .present skills => pySorted severitySortKeySkill (skills.map (scanSkill home))

/-- `main`'s exit-code logic: `has_high_risk` scans every finding of every
result for severity `严重` or `高`; `sys.exit(1)` if found, otherwise `main`
returns and the process exits 0. -/
def hasHighRisk (results : List SkillResult) : Bool :=
  results.any fun r => r.findings.any fun f => f.severity == "严重" || f.severity == "高"

def mainExitCode (results : List SkillResult) : Nat :=
  if hasHighRisk results then 1 else 0

/-! ## Specification-side definitions

These restate properties in the spec's words, for comparison with the
implementation definitions above. -/

/-- Spec: the `long_line` findings are exactly one Low finding per physical
line (1-based) longer than 200 characters whose stripped text does not start
with `#`. -/
def longLineSpec (src : String) : List Finding :=
  ((List.enumFrom 1 (pySplit '\n' src)).filter fun p =>
      !strippedStartsHash p.2 && p.2.length > 200).map fun p =>
    mkLongLine p.1 p.2.length

/-- Spec (claim C2): sorted by severity rank ascending, then line ascending —
as an adjacent-pairs check of the corresponding lexicographic order. -/
def sortedBySevThenLine : List Finding → Bool
  | [] => true
  | [_] => true
  | a :: b :: rest =>
    (findingKey a < findingKey b ||
      (findingKey a == findingKey b && a.line ≤ b.line)) &&
      sortedBySevThenLine (b :: rest)

/-- Spec (claim C3): a skill's worst contained finding severity rank
(4 when it has no findings, so such skills sort last). -/
def worstRank (r : SkillResult) : Nat :=
  (r.findings.map findingKey).foldr min 4

/-- Spec (claim C3): skills sorted by worst-contained-severity ascending —
as an adjacent-pairs check. -/
def sortedByWorstRank : List SkillResult → Bool
  | [] => true
  | [_] => true
  | a :: b :: rest => (worstRank a ≤ worstRank b) && sortedByWorstRank (b :: rest)

/-- The first `data=`/`json=` keyword whose value is a bare `Name` with a
sensitive identifier, if any (the loop's early `return` point). -/
def firstSensitivePayload : PyKws → Option String
  | .nil => none
  | .cons arg v rest =>
    if arg == some "data" || arg == some "json" then
      match asNameId v with
      | some id =>
        if isSensitiveId id then some id else firstSensitivePayload rest
      | none => firstSensitivePayload rest
    else firstSensitivePayload rest

/-- Does some keyword carry a `data=`/`json=` payload? -/
def hasPayloadKw : PyKws → Bool
  | .nil => false
  | .cons arg _ rest =>
    (arg == some "data" || arg == some "json") || hasPayloadKw rest

/-- The first sensitive-path table entry whose fragment occurs in the
expanded path (spec's first-match description, via `List.find?`). -/
def firstSensitiveMatch (expanded : String) : Option (String × String × String) :=
  SENSITIVE_PATTERNS.find? fun e => strContains expanded (strLower e.1)

/-! ## Concrete inputs used by witnesses and counterexamples

Each is a faithful transcription of `ast.parse` on the quoted source
(line/column values checked against CPython). -/

/-- `requests.post(url, data=x)` on line 1, `requests.get(u)` on line 2. -/
def srcC2 : String := "requests.post(url, data=x)\nrequests.get(u)"

def modC2 : Module :=
  ⟨stmtsOf
    [.exprStmt
      (.call (.attr (.name "requests" 1 0) "post" 1 0)
        (exprsOf [.name "url" 1 14])
        (kwsOf [(some "data", .name "x" 1 24)]) 1 0) 1 0,
     .exprStmt
      (.call (.attr (.name "requests" 2 0) "get" 2 0)
        (exprsOf [.name "u" 2 13]) (kwsOf []) 2 0) 2 0]⟩

def skillC2 : SkillInput :=
  ⟨"demo", "demo skill", true, [.readable (.ok modC2) srcC2]⟩

/-- `fetch("http://1.2.3.4")`: a call whose callee is a bare identifier,
with a string literal matching the dotted-IP pattern. -/
def modC8 : Module :=
  ⟨stmtsOf
    [.exprStmt
      (.call (.name "fetch" 1 0) (exprsOf [.constStr "http://1.2.3.4" 1 6])
        (kwsOf []) 1 0) 1 0]⟩

/-- A 250-character line that parses: `s = "aaaa…a"` (244 `a`s). -/
def src250 : String := "s = \"" ++ String.mk (List.replicate 244 'a') ++ "\""

def mod250 : Module :=
  ⟨stmtsOf
    [.assign (exprsOf [.name "s" 1 0])
      (.constStr (String.mk (List.replicate 244 'a')) 1 4) 1 0]⟩

/-- A 250-character line that does not parse: `x ` followed by 248 `=`.
CPython: `SyntaxError('invalid syntax', lineno 1, offset 5)` (the error
fields do not influence any detector output except the synthetic
`dangerous_calls` finding). -/
def srcBad250 : String := "x " ++ String.mk (List.replicate 248 '=')

/-- A skill with no findings, discovered first. -/
def skillClean : SkillInput := ⟨"clean", "clean skill", true, []⟩

/-- `eval(code)`: one Critical finding; discovered second. -/
def skillEvil : SkillInput :=
  ⟨"evil", "evil skill", true,
   [.readable
     (.ok ⟨stmtsOf
       [.exprStmt (.call (.name "eval" 1 0) (exprsOf [.name "code" 1 5])
         (kwsOf []) 1 0) 1 0]⟩) "eval(code)"]⟩

/-- A result list with one Critical finding (for the C1 witness). -/
def resultsC1 : List SkillResult :=
  [⟨"s", "d", [⟨"dangerous_calls", "eval", "严重", 1, 0,
    "动态代码执行，可能导致任意代码执行漏洞"⟩]⟩]

/-! ## General lemmas -/

theorem mem_concatMap {f : α → List β} {b : β} :
    ∀ {l : List α}, b ∈ concatMap f l ↔ ∃ a ∈ l, b ∈ f a
  | [] => by simp [concatMap]
  | a :: l => by
    simp only [concatMap, List.mem_append, List.mem_cons]
    constructor
    · rintro (h | h)
      · exact ⟨a, Or.inl rfl, h⟩
      · obtain ⟨a', ha', hb⟩ := mem_concatMap.mp h
        exact ⟨a', Or.inr ha', hb⟩
    · rintro ⟨a', (rfl | ha'), hb⟩
      · exact Or.inl hb
      · exact Or.inr (mem_concatMap.mpr ⟨a', ha', hb⟩)

/-- Membership-based characterisation of an empty filter result. -/
theorem filter_eq_nil_of_mem {p : α → Bool} :
    ∀ {l : List α}, (∀ a ∈ l, p a = false) → l.filter p = []
  | [], _ => rfl
  | a :: l, h => by
    have ha := h a (List.mem_cons_self a l)
    simp only [List.filter, ha]
    exact filter_eq_nil_of_mem fun x hx => h x (List.mem_cons_of_mem a hx)

theorem filter_eq_self_of_mem {p : α → Bool} :
    ∀ {l : List α}, (∀ a ∈ l, p a = true) → l.filter p = l
  | [], _ => rfl
  | a :: l, h => by
    have ha := h a (List.mem_cons_self a l)
    simp only [List.filter, ha]
    exact congrArg (a :: ·) (filter_eq_self_of_mem fun x hx => h x (List.mem_cons_of_mem a hx))
/-- A substring of `t` is a substring of `s ++ t`. -/
theorem infixOfL_append_left (needle s : List Char) {t : List Char}
    (h : infixOfL needle t = true) : infixOfL needle (s ++ t) = true := by
  induction s with
  | nil => simpa using h
  | cons c s ih =>
    cases t with
    | nil => simp only [List.cons_append, infixOfL, Bool.or_eq_true]; exact Or.inr ih
    | cons d t => simp only [List.cons_append, infixOfL, Bool.or_eq_true]; exact Or.inr ih

theorem strContains_append_left (s t needle : String)
    (h : strContains t needle = true) : strContains (s ++ t) needle = true := by
  have : (s ++ t).toList = s.toList ++ t.toList := by
    simp [String.toList, String.data_append]
  rw [strContains, this]
  exact infixOfL_append_left _ _ h
theorem pairwise_insertByKey {key : α → Nat} {x : α} :
    ∀ {l : List α}, l.Pairwise (fun a b => key a ≤ key b) →
      (insertByKey key x l).Pairwise (fun a b => key a ≤ key b)
  | [], _ => List.pairwise_singleton _ x
  | y :: ys, h => by
    rw [List.pairwise_cons] at h
    obtain ⟨hy, hys⟩ := h
    by_cases hxy : key x ≤ key y
    · simp only [insertByKey, if_pos hxy]
      refine List.Pairwise.cons ?_ (List.Pairwise.cons hy hys)
      intro b hb
      rcases List.mem_cons.mp hb with rfl | hb
      · exact hxy
      · exact le_trans hxy (hy b hb)
    · simp only [insertByKey, if_neg hxy]
      refine List.Pairwise.cons ?_ (pairwise_insertByKey hys)
      intro b hb
      have hmem := mem_insertByKey hb
      rcases hmem with rfl | hb'
      · exact le_of_not_le hxy
      · exact hy b hb'
where
  mem_insertByKey {b x : α} : ∀ {l : List α}, b ∈ insertByKey key x l → b = x ∨ b ∈ l
    | [], h => by simpa [insertByKey] using h
    | y :: ys, h => by
      by_cases hxy : key x ≤ key y
      · simp only [insertByKey, if_pos hxy, List.mem_cons] at h
        rcases h with rfl | h
        · exact Or.inl rfl
        · exact Or.inr (by simpa using h)
      · simp only [insertByKey, if_neg hxy, List.mem_cons] at h
        rcases h with rfl | h
        · exact Or.inr (List.mem_cons_self _ _)
        · rcases mem_insertByKey h with rfl | h'
          · exact Or.inl rfl
          · exact Or.inr (List.mem_cons_of_mem _ h')

/-- Sortedness of `pySorted`. -/
theorem pairwise_pySorted (key : α → Nat) :
    ∀ (l : List α), (pySorted key l).Pairwise (fun a b => key a ≤ key b)
  | [] => List.Pairwise.nil
  | x :: xs => pairwise_insertByKey (pairwise_pySorted key xs)

theorem insertByKey_perm (key : α → Nat) (x : α) :
    ∀ (l : List α), (insertByKey key x l).Perm (x :: l)
  | [] => List.Perm.refl _
  | y :: ys => by
    by_cases hxy : key x ≤ key y
    · simp [insertByKey, hxy]
    · simp only [insertByKey, if_neg hxy]
      exact (List.Perm.cons y (insertByKey_perm key x ys)).trans (List.Perm.swap x y ys)

/-- `pySorted` permutes its input. -/
theorem pySorted_perm (key : α → Nat) : ∀ (l : List α), (pySorted key l).Perm l
  | [] => List.Perm.refl _
  | x :: xs =>
    ((insertByKey_perm key x (pySorted key xs)).trans
      (List.Perm.cons x (pySorted_perm key xs)))

theorem filter_insertByKey (key : α → Nat) (x : α) (k : Nat) :
    ∀ (l : List α), (insertByKey key x l).filter (fun a => key a == k) =
      if key x == k then x :: l.filter (fun a => key a == k)
      else l.filter (fun a => key a == k)
  | [] => by
    simp only [insertByKey]
    by_cases hx : key x == k <;> simp [List.filter, hx]
  | y :: ys => by
    by_cases hxy : key x ≤ key y
    · simp only [insertByKey, if_pos hxy, List.filter]
      by_cases hx : key x == k <;> simp [hx]
    · simp only [insertByKey, if_neg hxy, List.filter]
      have ih := filter_insertByKey key x k ys
      by_cases hx : key x = k
      · have hy : (key y == k) = false := by
          have : key y < key x := Nat.lt_of_not_le hxy
          simp only [beq_eq_false_iff_ne, ne_eq]
          omega
        simp only [hy, hx, beq_self_eq_true, if_pos] at ih ⊢
        simpa [hy] using ih
      · have hx' : (key x == k) = false := by simpa using hx
        simp only [hx', if_neg, Bool.false_eq_true, not_false_iff] at ih ⊢
        by_cases hy : key y == k <;> simp [hy, ih]

/-- Stability of `pySorted`: elements of each key class keep their
original relative order. -/
theorem filter_pySorted (key : α → Nat) (k : Nat) :
    ∀ (l : List α),
      (pySorted key l).filter (fun a => key a == k) = l.filter (fun a => key a == k)
  | [] => rfl
  | x :: xs => by
    have ih := filter_pySorted key k xs
    have h := filter_insertByKey key x k (pySorted key xs)
    by_cases hx : key x == k
    · simp only [hx, if_pos] at h
      simp [pySorted, h, ih, List.filter, hx]
    · simp only [hx, Bool.false_eq_true, if_neg, not_false_iff] at h
      simp [pySorted, h, ih, List.filter, hx]

theorem startsWithL_self : ∀ (l : List Char), startsWithL l l = true
  | [] => rfl
  | c :: cs => by simp [startsWithL, startsWithL_self cs]

theorem infixOfL_self (l : List Char) : infixOfL l l = true := by
  cases l with
  | nil => rfl
  | cons c cs => simp [infixOfL, startsWithL_self]

/-- A string contains its own suffix: `strContains (s ++ t) t`. -/
theorem strContains_append_self (s t : String) : strContains (s ++ t) t = true :=
  strContains_append_left s t t (by simpa [strContains] using infixOfL_self t.toList)

/-- Every finding of a traversed expression tree comes from `locE` at some
node. -/
theorem mem_exprTreeFindings {locE : PyExpr → List Finding} {f : Finding}
    {e : PyExpr} (h : f ∈ exprTreeFindings locE e) : ∃ n, f ∈ locE n := by
  obtain ⟨n, _, hn⟩ := mem_concatMap.mp h
  exact ⟨n, hn⟩

theorem mem_exprsTreeFindings {locE : PyExpr → List Finding} {f : Finding}
    {es : PyExprs} (h : f ∈ exprsTreeFindings locE es) : ∃ n, f ∈ locE n := by
  obtain ⟨n, _, hn⟩ := mem_concatMap.mp h
  exact ⟨n, hn⟩

mutual

/-- Every finding of a detector run comes from one of its per-node handlers. -/
theorem mem_stmtFindings {locS : PyStmt → List Finding} {locE : PyExpr → List Finding}
    {f : Finding} : ∀ (s : PyStmt), f ∈ stmtFindings locS locE s →
      (∃ s', f ∈ locS s') ∨ (∃ e, f ∈ locE e)
  | .exprStmt v l c, h => by
    rcases List.mem_append.mp (by simpa [stmtFindings] using h) with h' | h'
    · exact Or.inl ⟨_, h'⟩
    · exact Or.inr (mem_exprTreeFindings h')
  | .assign ts v l c, h => by
    have h3 : f ∈ locS (PyStmt.assign ts v l c) ∨
        f ∈ exprsTreeFindings locE ts ∨ f ∈ exprTreeFindings locE v := by
      simpa [stmtFindings] using h
    rcases h3 with h' | h' | h'
    · exact Or.inl ⟨_, h'⟩
    · exact Or.inr (mem_exprsTreeFindings h')
    · exact Or.inr (mem_exprTreeFindings h')
  | .importStmt names l c, h => Or.inl ⟨_, by simpa [stmtFindings] using h⟩
  | .importFrom m l c, h => Or.inl ⟨_, by simpa [stmtFindings] using h⟩
  | .compound es body l c, h => by
    have h3 : f ∈ locS (PyStmt.compound es body l c) ∨
        f ∈ exprsTreeFindings locE es ∨ f ∈ stmtsFindings locS locE body := by
      simpa [stmtFindings] using h
    rcases h3 with h' | h' | h'
    · exact Or.inl ⟨_, h'⟩
    · exact Or.inr (mem_exprsTreeFindings h')
    · exact mem_stmtsFindings body h'

theorem mem_stmtsFindings {locS : PyStmt → List Finding} {locE : PyExpr → List Finding}
    {f : Finding} : ∀ (b : PyStmts), f ∈ stmtsFindings locS locE b →
      (∃ s', f ∈ locS s') ∨ (∃ e, f ∈ locE e)
  | .nil, h => by simp [stmtsFindings] at h
  | .cons s rest, h => by
    rcases List.mem_append.mp (by simpa [stmtsFindings] using h) with h' | h'
    · exact mem_stmtFindings s h'
    · exact mem_stmtsFindings rest h'

end

/-- A detector whose handlers never emit findings satisfying `p` never
produces one. -/
theorem detectorRun_filter_nil {locS : PyStmt → List Finding}
    {locE : PyExpr → List Finding} {p : Finding → Bool} (m : Module)
    (hS : ∀ s f, f ∈ locS s → p f = false)
    (hE : ∀ e f, f ∈ locE e → p f = false) :
    (detectorRun locS locE m).filter p = [] := by
  refine filter_eq_nil_of_mem fun f hf => ?_
  rcases mem_stmtsFindings m.body hf with ⟨s, hs⟩ | ⟨e, he⟩
  · exact hS s f hs
  · exact hE e f he

/-- All findings of `visit_JoinedStr`'s loop are `chr_fstring`. -/
theorem joinedStrFindings_name (l c : Nat) (f : Finding) :
    ∀ (vs : PyExprs), f ∈ joinedStrFindings l c vs → f.name = "chr_fstring"
  | .nil, h => by simp [joinedStrFindings] at h
  | .cons v rest, h => by
    rcases List.mem_append.mp (by simpa [joinedStrFindings] using h) with h' | h'
    · cases v <;> try simp at h'
      case formattedValue inner li ci =>
        cases inner <;> try simp at h'
        case call f' args kws l' c' =>
          by_cases hc : getFuncName f' = "chr"
          · simp [hc] at h'
            simp [h']
          · simp [hc] at h'
    · exact joinedStrFindings_name l c f rest h'

/-- No finding of the obfuscation tree visitor is named `long_line`. -/
theorem obfuscationLocalE_name_ne (e : PyExpr) (f : Finding)
    (h : f ∈ obfuscationLocalE e) : (f.name == "long_line") = false := by
  cases e with
  | call fn args kws l c =>
    simp only [obfuscationLocalE] at h
    split at h
    · simp at h; simp [h]
    · split at h
      · split at h
        · simp at h; simp [h]
        · simp at h
      · split at h
        · simp at h; simp [h]
        · split at h
          · simp at h; simp [h]
          · simp at h
  | joinedStr vs l c =>
    have := joinedStrFindings_name l c f vs (by simpa [obfuscationLocalE] using h)
    simp [this]
  | listComp elt comps l c =>
    revert h
    cases elt <;> intro h <;> simp [obfuscationLocalE] at h <;> try exact h.elim
    case call f' args kws l' c' =>
      rcases h with ⟨hc, h⟩
      simp [h]
  | name id l c => simp [obfuscationLocalE] at h
  | attr v a l c => simp [obfuscationLocalE] at h
  | constStr str l c => simp [obfuscationLocalE] at h
  | constOther l c => simp [obfuscationLocalE] at h
  | subscript v sl l c => simp [obfuscationLocalE] at h
  | formattedValue v l c => simp [obfuscationLocalE] at h
  | other ch l c => simp [obfuscationLocalE] at h

/-- `_check_long_lines`'s loop equals the filtered-enumeration description. -/
theorem checkLongLines_go_spec :
    ∀ (lines : List String) (i : Nat),
      checkLongLines.go i lines =
        ((List.enumFrom i lines).filter fun p =>
          !strippedStartsHash p.2 && p.2.length > 200).map fun p =>
            mkLongLine p.1 p.2.length
  | [], _ => rfl
  | line :: rest, i => by
    rw [checkLongLines.go, List.enumFrom_cons]
    by_cases h1 : strippedStartsHash line
    · simp [h1, checkLongLines_go_spec rest (i + 1)]
    · by_cases h2 : line.length > 200
      · simp [h1, h2, checkLongLines_go_spec rest (i + 1)]
      · simp [h1, h2, checkLongLines_go_spec rest (i + 1)]

/-- Every finding of the long-line pass is named `long_line`. -/
theorem checkLongLines_names (src : String) :
    ∀ f ∈ checkLongLines src, (f.name == "long_line") = true := by
  intro f hf
  rw [checkLongLines, checkLongLines_go_spec] at hf
  obtain ⟨p, _, rfl⟩ := List.mem_map.mp hf
  rfl

/-- The long-line pass, started at line 1, is the spec's enumeration. -/
theorem checkLongLines_eq_spec (src : String) :
    checkLongLines src = longLineSpec src := by
  rw [checkLongLines, checkLongLines_go_spec, longLineSpec]

/-- Sorting by a constant key never reorders (stable sort, all ties). -/
theorem pySorted_const_key {k : Nat} : ∀ (l : List α), pySorted (fun _ => k) l = l
  | [] => rfl
  | x :: xs => by
    simp [pySorted, pySorted_const_key xs, insertByKey]
    cases xs <;> simp [insertByKey]

/-! ## Claim theorems -/

/-- C1: the process exit code is 1 iff some finding anywhere in the results
has severity Critical (严重) or High (高); otherwise — including the empty
report and reports with only Medium/Low findings — it is 0. -/
theorem c1_exit_code_iff_high_severity (rs : List SkillResult) :
    (mainExitCode rs = 1 ↔
      ∃ r ∈ rs, ∃ f ∈ r.findings, f.severity = "严重" ∨ f.severity = "高") ∧
    (mainExitCode rs = 0 ↔
      ¬∃ r ∈ rs, ∃ f ∈ r.findings, f.severity = "严重" ∨ f.severity = "高") := by
  have key : hasHighRisk rs = true ↔
      ∃ r ∈ rs, ∃ f ∈ r.findings, f.severity = "严重" ∨ f.severity = "高" := by
    simp [hasHighRisk, List.any_eq_true]
  by_cases h : hasHighRisk rs
  · simp [mainExitCode, h, key.mp h]
  · have hn : ¬∃ r ∈ rs, ∃ f ∈ r.findings, f.severity = "严重" ∨ f.severity = "高" :=
      fun hx => h (key.mpr hx)
    simp [mainExitCode, h, hn]

/-- C1 witness: a report with one Critical finding exits 1, the empty report
exits 0. -/
theorem c1_witness : mainExitCode resultsC1 = 1 ∧ mainExitCode [] = 0 :=
  ⟨(c1_exit_code_iff_high_severity resultsC1).1.mpr
    ⟨⟨"s", "d", [⟨"dangerous_calls", "eval", "严重", 1, 0,
        "动态代码执行，可能导致任意代码执行漏洞"⟩]⟩, by decide,
      ⟨"dangerous_calls", "eval", "严重", 1, 0,
        "动态代码执行，可能导致任意代码执行漏洞"⟩, by decide, Or.inl rfl⟩,
   (c1_exit_code_iff_high_severity []).2.mpr (by simp)⟩

/-- C2 counterexample: in `skillC2` all three merged findings are Medium but
their line numbers come out `[1, 2, 1]` — the merged list is sorted by
severity alone, so the claimed line-number tiebreak fails. -/
theorem c2_counterexample :
    (scanSkill "/home/user" skillC2).findings.map (fun f => (f.severity, f.line)) =
      [("中", 1), ("中", 2), ("中", 1)] ∧
    sortedBySevThenLine (scanSkill "/home/user" skillC2).findings = false :=
  ⟨by decide, by decide⟩

/-- C2 (amended): for every skill with a scripts directory the merged finding
list is the concatenation of the per-file findings (files in discovery
order, detectors in declaration order) stably sorted by severity rank alone
(严重=0, 高=1, 中=2, 低=3): it is sorted by rank, permutes the concatenation,
and ties keep the concatenation order; line and column are not sort keys. -/
theorem c2_stable_severity_sort (home : String) (s : SkillInput)
    (hs : s.hasScriptsDir = true) :
    (scanSkill home s).findings =
      pySorted findingKey (concatMap (scanFileFindings home) s.files) ∧
    ((scanSkill home s).findings).Pairwise (fun a b => findingKey a ≤ findingKey b) ∧
    ((scanSkill home s).findings).Perm (concatMap (scanFileFindings home) s.files) ∧
    ∀ k, ((scanSkill home s).findings).filter (fun f => findingKey f == k) =
      (concatMap (scanFileFindings home) s.files).filter (fun f => findingKey f == k) := by
  have h : (scanSkill home s).findings =
      pySorted findingKey (concatMap (scanFileFindings home) s.files) := by
    simp [scanSkill, hs]
  refine ⟨h, ?_, ?_, fun k => ?_⟩
  · rw [h]; exact pairwise_pySorted _ _
  · rw [h]; exact pySorted_perm _ _
  · rw [h]; exact filter_pySorted _ _ _

/-- C2 witness: the amended sorting facts instantiated on `skillC2`. -/
theorem c2_witness :
    ((scanSkill "/home/user" skillC2).findings).Pairwise
      (fun a b => findingKey a ≤ findingKey b) :=
  (c2_stable_severity_sort "/home/user" skillC2 rfl).2.1

/-- C3: `scan_all` never reorders — `_severity_sort_key` reads the missing
`severity` key of every skill dict, getting the default rank — so at the
failing input the list keeps discovery order `[clean, evil]` although `evil`
holds a Critical finding and `clean` none, violating the claimed
worst-severity ordering. -/
theorem c3_scan_all_keeps_discovery_order (home : String) (skills : List SkillInput) :
    scanAll home (.present skills) = skills.map (scanSkill home) ∧
    (scanAll "/home/user" (.present [skillClean, skillEvil])).map (·.skill) =
      ["clean", "evil"] ∧
    worstRank (scanSkill "/home/user" skillEvil) = 0 ∧
    (scanSkill "/home/user" skillClean).findings = [] ∧
    sortedByWorstRank (scanAll "/home/user" (.present [skillClean, skillEvil])) = false :=
  ⟨pySorted_const_key _, by decide, by decide, by decide, by decide⟩

/-- C4 counterexample: with a missing skills root the process exits 0, not
non-zero — `scan_all` prints the error and returns `[]`, and `main` then
finds no high-risk finding. -/
theorem c4_counterexample : mainExitCode (scanAll "/home/user" RootDir.missing) = 0 := rfl

/-- C4 (amended): if the root skills directory does not exist, `scan_all`
reports the error and returns an empty result list — so the (empty) report is
still printed — and the process exits 0. -/
theorem c4_missing_root_empty_exit_zero (home : String) :
    scanAll home RootDir.missing = [] ∧
    mainExitCode (scanAll home RootDir.missing) = 0 :=
  ⟨rfl, rfl⟩

/-- C5: for every readable source file whose text fails to parse, the file's
scan returns exactly one finding — the synthetic Low `SyntaxError` finding of
the dangerous-calls detector with the parser's line, column and message — and
no detector contributes anything else (files are scanned independently, so
other files are unaffected). -/
theorem c5_parse_failure_single_finding (home : String) (lineno offset : Option Nat)
    (msg src : String) :
    scanFileFindings home (.readable (.err lineno offset msg) src) =
      [⟨"dangerous_calls", "SyntaxError", "低", lineno.getD 0, offset.getD 0,
        "语法错误: " ++ msg⟩] := rfl

set_option maxRecDepth 8000 in
/-- C6 (amended): for every source file that parses, the Obfuscation
detector's whole-source pass — skipped when parsing fails — emits exactly one
Low `long_line` finding per physical line longer than 200 characters whose
stripped text does not start with `#`, carrying the line number and character
count; in particular the parsed 250-character non-comment line of `src250`
yields exactly one such Low finding whose detail contains `250`. -/
theorem c6_long_line_whole_source_pass (m : Module) (src : String) :
    ((obfuscationDetect src (.ok m)).filter (fun f => f.name == "long_line") =
      longLineSpec src) ∧
    (obfuscationDetect src250 (.ok mod250)).filter (fun f => f.name == "long_line") =
      [mkLongLine 1 250] ∧
    (mkLongLine 1 250).severity = "低" ∧
    strContains (mkLongLine 1 250).details "250" = true := by
  refine ⟨?_, by decide, rfl, by decide⟩
  simp only [obfuscationDetect, List.filter_append]
  rw [detectorRun_filter_nil m (fun s f hs => by simp [noLocalS] at hs)
      (fun e f he => obfuscationLocalE_name_ne e f he),
    filter_eq_self_of_mem (checkLongLines_names src), checkLongLines_eq_spec]
  rfl

set_option maxRecDepth 8000 in
/-- C6 counterexample: a source file whose only physical line has 250
non-comment characters but does not parse produces no `long_line` finding at
all (the whole-source pass runs inside the `try` and is skipped on
`SyntaxError`), contradicting the claim's "for every source file". -/
theorem c6_counterexample :
    obfuscationDetect srcBad250 (.err (some 1) (some 5) "invalid syntax") = [] ∧
    (pySplit '\n' srcBad250).any
      (fun line => !strippedStartsHash line && line.length > 200) = true :=
  ⟨rfl, by decide⟩

/-- The keyword loop of `_check_http_data_send`, characterised: the first
sensitive bare-name payload wins (Critical); otherwise one Medium finding
iff a payload keyword was seen (or the flag was already set). -/
theorem httpSendLoop_spec (fn : String) (l c : Nat) :
    ∀ (kws : PyKws) (hasData : Bool),
      httpSendLoop fn l c kws hasData =
        (match firstSensitivePayload kws with
         | some id => [httpExfilFinding fn id l c]
         | none =>
           if hasData || hasPayloadKw kws then [httpDataSendFinding fn l c] else [])
  | .nil, hasData => by
    cases hasData <;> simp [httpSendLoop, firstSensitivePayload, hasPayloadKw]
  | .cons arg v rest, hasData => by
    have ih := httpSendLoop_spec fn l c rest
    simp only [httpSendLoop, firstSensitivePayload, hasPayloadKw]
    by_cases hp : (arg == some "data" || arg == some "json") = true
    · simp only [hp, if_true]
      cases hv : asNameId v with
      | some id =>
        by_cases hs : isSensitiveId id = true
        · simp [hs]
        · rw [ih true]
          cases hfs : firstSensitivePayload rest <;> simp [hs, hfs, hp]
      | none =>
        rw [ih true]
        cases hfs : firstSensitivePayload rest <;> simp [hfs, hp]
    · have hp' : (arg == some "data" || arg == some "json") = false := by
        simpa using hp
      simp only [hp', Bool.false_eq_true, if_false, Bool.false_or]
      exact ih hasData

theorem firstSensitivePayload_sensitive :
    ∀ (kws : PyKws) (id : String), firstSensitivePayload kws = some id →
      isSensitiveId id = true
  | .nil, id, h => by simp [firstSensitivePayload] at h
  | .cons arg v rest, id, h => by
    simp only [firstSensitivePayload] at h
    by_cases hp : (arg == some "data" || arg == some "json") = true
    · simp only [hp, if_true] at h
      cases hv : asNameId v with
      | some id' =>
        rw [hv] at h
        by_cases hs : isSensitiveId id' = true
        · simp [hs] at h
          subst h
          exact hs
        · simp [hs] at h
          exact firstSensitivePayload_sensitive rest id h
      | none =>
        rw [hv] at h
        exact firstSensitivePayload_sensitive rest id h
    · have hp' : (arg == some "data" || arg == some "json") = false := by simpa using hp
      rw [hp'] at h
      simp only [Bool.false_eq_true, if_false] at h
      exact firstSensitivePayload_sensitive rest id h

/-- C7: for every `requests.post/put/patch` call carrying a `data=`/`json=`
keyword, the DataExfiltration detector emits exactly one finding at that
call: Critical naming the variable when some payload keyword is a bare
identifier with a sensitive name (first such keyword wins), otherwise
Medium for the bare payload — never both. -/
theorem c7_http_payload_single_finding (method : String) (args : PyExprs)
    (kws : PyKws) (lr cr la ca l c : Nat)
    (hm : method = "post" ∨ method = "put" ∨ method = "patch")
    (hkw : hasPayloadKw kws = true) :
    dataExfilLocalE (.call (.attr (.name "requests" lr cr) method la ca) args kws l c) =
      [(firstSensitivePayload kws).elim
        (httpDataSendFinding ("requests." ++ method) l c)
        (fun id => httpExfilFinding ("requests." ++ method) id l c)] ∧
    ∀ id, firstSensitivePayload kws = some id →
      isSensitiveId id = true ∧
      strContains (httpExfilFinding ("requests." ++ method) id l c).details id = true := by
  constructor
  · have hfn : getFuncName (PyExpr.attr (.name "requests" lr cr) method la ca) =
        "requests." ++ method := by
      simp only [getFuncName, dottedName, joinDots]
      rfl
    rcases hm with rfl | rfl | rfl <;>
    · simp only [dataExfilLocalE, hfn]
      rw [if_pos (by decide)]
      rw [httpSendLoop_spec]
      cases hfs : firstSensitivePayload kws <;> simp [hfs, hkw, Option.elim]
  · intro id hid
    refine ⟨firstSensitivePayload_sensitive kws id hid, ?_⟩
    exact strContains_append_self _ id

/-- C7 witness: `requests.post(url, data=password_var)` yields exactly one
Critical DataExfiltration finding naming `password_var`. -/
theorem c7_witness :
    dataExfilLocalE (.call (.attr (.name "requests" 1 0) "post" 1 0)
      (exprsOf [.name "url" 1 14])
      (kwsOf [(some "data", .name "password_var" 1 24)]) 1 0) =
      [⟨"data_exfil", "http_exfil", "严重", 1, 0,
        "HTTP POST 发送可能包含敏感数据的变量: password_var"⟩] := by
  have h := c7_http_payload_single_finding "post" (exprsOf [.name "url" 1 14])
    (kwsOf [(some "data", .name "password_var" 1 24)]) 1 0 1 0 1 0
    (Or.inl rfl) (by decide)
  exact h.1.trans (by decide)

/-- Shape of a `_check_suspicious_url` result. -/
theorem checkSuspiciousUrl_shape (url : String) (line : Nat) (fd : Finding)
    (h : checkSuspiciousUrl url line = some fd) :
    fd.name = "suspicious_url" ∧ fd.severity = "中" ∧ fd.line = line ∧ fd.col = 0 := by
  simp only [checkSuspiciousUrl] at h
  split at h
  · obtain rfl := Option.some.inj h; exact ⟨rfl, rfl, rfl, rfl⟩
  · split at h
    · obtain rfl := Option.some.inj h; exact ⟨rfl, rfl, rfl, rfl⟩
    · split at h
      · obtain rfl := Option.some.inj h; exact ⟨rfl, rfl, rfl, rfl⟩
      · exact absurd h (by simp)

/-- Every finding of the URL argument loop is a Medium `suspicious_url`. -/
theorem urlArgsGo_shape (l : Nat) :
    ∀ (args : PyExprs) (fd : Finding), fd ∈ urlArgsGo l args →
      fd.severity = "中" ∧ fd.name = "suspicious_url"
  | .nil, fd, h => by simp [urlArgsGo] at h
  | .cons a rest, fd, h => by
    rcases List.mem_append.mp (by simpa [urlArgsGo] using h) with h' | h'
    · revert h'
      cases a <;> intro h' <;> try simp at h'
      case constStr s li ci =>
        cases hc : checkSuspiciousUrl s l with
        | some x =>
          rw [hc] at h'
          simp at h'
          subst h'
          obtain ⟨h1, h2, _, _⟩ := checkSuspiciousUrl_shape s l x hc
          exact ⟨h2, h1⟩
        | none => rw [hc] at h'; simp at h'
    · exact urlArgsGo_shape l rest fd h'

set_option maxRecDepth 4000 in
/-- A successful `NETWORK_FUNCTIONS` lookup never has key `suspicious_url`. -/
theorem tableLookup_network_key_ne (fn : String) (x : String × String)
    (h : tableLookup NETWORK_FUNCTIONS fn = some x) :
    (fn == "suspicious_url") = false := by
  simp only [tableLookup, Option.map_eq_some'] at h
  obtain ⟨e, he, _⟩ := h
  have hmem := List.mem_of_find?_eq_some he
  have hkey := List.find?_some he
  have hfe : e.1 = fn := by simpa using hkey
  have hall : ∀ e2 ∈ NETWORK_FUNCTIONS, (e2.1 == "suspicious_url") = false := by decide
  rw [← hfe]
  exact hall e hmem

/-- The table-lookup finding never passes the `suspicious_url` filter. -/
theorem networkTableFinding_filter (f : PyExpr) (l c : Nat) :
    (networkTableFinding f l c).filter (fun fd => fd.name == "suspicious_url") = [] := by
  rw [networkTableFinding]
  cases h : tableLookup NETWORK_FUNCTIONS (getFuncName f) with
  | none => rfl
  | some x =>
    obtain ⟨sev, det⟩ := x
    have hne : ((⟨"network_ops", getFuncName f, sev, l, c, det⟩ : Finding).name ==
        "suspicious_url") = false :=
      tableLookup_network_key_ne (getFuncName f) (sev, det) h
    rw [List.filter_cons]
    simp [hne]

/-- C8 (amended): for every call expression, the `suspicious_url` findings of
the NetworkOps `visit_Call` are exactly the matches of the string-literal
positional arguments — and those are collected only when the callee is an
`ast.Attribute`; a call whose callee is a bare identifier (or any
non-attribute expression) gets no URL scan at all. All such findings are
Medium. -/
theorem c8_url_check_needs_attribute_callee (f : PyExpr) (args : PyExprs)
    (kws : PyKws) (l c : Nat) :
    ((networkLocalE (.call f args kws l c)).filter
        (fun fd => fd.name == "suspicious_url") = urlArgFindings f args l) ∧
    (isAttributeNode f = false → urlArgFindings f args l = []) ∧
    (∀ fd ∈ urlArgFindings f args l, fd.severity = "中" ∧ fd.name = "suspicious_url") := by
  have hurl : ∀ fd ∈ urlArgFindings f args l, fd.severity = "中" ∧ fd.name = "suspicious_url" := by
    intro fd hfd
    rw [urlArgFindings] at hfd
    split at hfd
    · exact urlArgsGo_shape l args fd hfd
    · simp at hfd
  refine ⟨?_, ?_, hurl⟩
  · simp only [networkLocalE, List.filter_append]
    rw [networkTableFinding_filter f l c, List.nil_append]
    refine filter_eq_self_of_mem fun fd hfd => ?_
    simp [(hurl fd hfd).2]
  · intro hna
    rw [urlArgFindings, hna]
    simp

/-- C8 witness: an attribute-callee call with an IPv4 string literal gets
exactly its one Medium `suspicious_url` finding. -/
theorem c8_witness :
    (networkLocalE (.call (.attr (.name "requests" 1 0) "get" 1 0)
      (exprsOf [.constStr "http://1.2.3.4" 1 13]) (kwsOf []) 1 0)).filter
        (fun fd => fd.name == "suspicious_url") =
      [⟨"network_ops", "suspicious_url", "中", 1, 0,
        "直接 IP 地址访问: http://1.2.3.4"⟩] := by
  have h := c8_url_check_needs_attribute_callee (.attr (.name "requests" 1 0) "get" 1 0)
    (exprsOf [.constStr "http://1.2.3.4" 1 13]) (kwsOf []) 1 0
  exact h.1.trans (by decide)

/-- C8 counterexample: `fetch("http://1.2.3.4")` — the literal matches the
dotted-IP regex, yet the NetworkOps detector emits nothing for the whole
file, because the callee is a bare identifier and the URL scan is gated on
`isinstance(node.func, ast.Attribute)`. -/
theorem c8_counterexample :
    reSearchIPv4 "http://1.2.3.4" = true ∧ networkDetect (.ok modC8) = [] :=
  ⟨by decide, by decide⟩

/-- The sensitive-path table loop is first-match (`List.find?`) semantics. -/
theorem sensitiveGo_first_match (path : String) (l c : Nat) (expanded : String) :
    ∀ (pats : List (String × String × String)),
      sensitiveGo path l c expanded pats =
        ((pats.find? fun e => strContains expanded (strLower e.1)).map fun e =>
          (⟨"file_ops", "sensitive_file", e.2.2, l, c,
            "访问敏感文件 (" ++ e.2.1 ++ "): " ++ path⟩ : Finding)).toList
  | [] => rfl
  | (pat, desc, sev) :: rest => by
    by_cases h : strContains expanded (strLower pat) = true
    · simp [sensitiveGo, h, List.find?_cons_of_pos]
    · have h' : strContains expanded (strLower pat) = false := by simpa using h
      simp [sensitiveGo, h', List.find?_cons_of_neg,
        sensitiveGo_first_match path l c expanded rest]

/-- C9: `_check_sensitive_path` emits at most one finding; the finding is the
first matching entry of the ordered sensitive-path table (scanning stops
there), applied to the `~`-expanded lower-cased literal; and for every home
directory `open("~/.ssh/id_rsa")` yields exactly one Critical
`sensitive_file` finding whose detail mentions SSH. -/
theorem c9_sensitive_path_first_match (home path : String) (l c : Nat) :
    (checkSensitivePath home path l c).length ≤ 1 ∧
    checkSensitivePath home path l c =
      ((firstSensitiveMatch (expanduser home (strLower path))).map fun e =>
        (⟨"file_ops", "sensitive_file", e.2.2, l, c,
          "访问敏感文件 (" ++ e.2.1 ++ "): " ++ path⟩ : Finding)).toList ∧
    checkSensitivePath home "~/.ssh/id_rsa" l c =
      [⟨"file_ops", "sensitive_file", "严重", l, c,
        "访问敏感文件 (SSH 密钥目录): ~/.ssh/id_rsa"⟩] ∧
    strContains "访问敏感文件 (SSH 密钥目录): ~/.ssh/id_rsa" "SSH" = true := by
  have heq := sensitiveGo_first_match path l c (expanduser home (strLower path))
    SENSITIVE_PATTERNS
  refine ⟨?_, ?_, ?_, by decide⟩
  · rw [checkSensitivePath, heq]
    cases (SENSITIVE_PATTERNS.find? fun e =>
      strContains (expanduser home (strLower path)) (strLower e.1)) <;> simp
  · rw [checkSensitivePath, firstSensitiveMatch]
    exact heq
  · have hexp : expanduser home (strLower "~/.ssh/id_rsa") = home ++ "/.ssh/id_rsa" := by
      have h1 : strLower "~/.ssh/id_rsa" = "~/.ssh/id_rsa" := by decide
      rw [h1, expanduser, if_neg (by decide), if_pos (by decide)]
      rfl
    rw [checkSensitivePath, hexp]
    by_cases h1 : strContains (home ++ "/.ssh/id_rsa") (strLower "~/.ssh/") = true
    · simp [SENSITIVE_PATTERNS, sensitiveGo, h1]
    · have h2 : strContains (home ++ "/.ssh/id_rsa") (strLower ".ssh") = true := by
        have : strLower ".ssh" = ".ssh" := by decide
        rw [this]
        exact strContains_append_left home "/.ssh/id_rsa" ".ssh" (by decide)
      simp [SENSITIVE_PATTERNS, sensitiveGo, h1, h2]

/-- C10: per string literal at most one `suspicious_url` finding is emitted
even when several of the three regexes match, and its description is that of
the first matching pattern in the fixed order dotted-IP, explicit-port,
`.onion`. -/
theorem c10_first_matching_pattern_wins (url : String) (line : Nat) :
    (checkSuspiciousUrl url line).toList.length ≤ 1 ∧
    (reSearchIPv4 url = true →
      checkSuspiciousUrl url line = some ⟨"network_ops", "suspicious_url", "中",
        line, 0, urlDetails "直接 IP 地址访问" url⟩) ∧
    (reSearchIPv4 url = false → reSearchPort url = true →
      checkSuspiciousUrl url line = some ⟨"network_ops", "suspicious_url", "中",
        line, 0, urlDetails "非标准端口访问" url⟩) ∧
    (reSearchIPv4 url = false → reSearchPort url = false → reSearchOnion url = true →
      checkSuspiciousUrl url line = some ⟨"network_ops", "suspicious_url", "中",
        line, 0, urlDetails "Tor 网络访问" url⟩) ∧
    (reSearchIPv4 url = false → reSearchPort url = false → reSearchOnion url = false →
      checkSuspiciousUrl url line = none) := by
  refine ⟨?_, fun h1 => by simp [checkSuspiciousUrl, h1],
    fun h1 h2 => by simp [checkSuspiciousUrl, h1, h2],
    fun h1 h2 h3 => by simp [checkSuspiciousUrl, h1, h2, h3],
    fun h1 h2 h3 => by simp [checkSuspiciousUrl, h1, h2, h3]⟩
  rw [checkSuspiciousUrl]
  split
  · simp
  · split
    · simp
    · split <;> simp

/-- C10 witness: `http://1.2.3.4:8080` matches both the dotted-IP and the
explicit-port regex, and the single finding carries the first pattern's
description. -/
theorem c10_witness :
    reSearchIPv4 "http://1.2.3.4:8080" = true ∧
    reSearchPort "http://1.2.3.4:8080" = true ∧
    checkSuspiciousUrl "http://1.2.3.4:8080" 7 =
      some ⟨"network_ops", "suspicious_url", "中", 7, 0,
        "直接 IP 地址访问: http://1.2.3.4:8080"⟩ :=
  ⟨by decide, by decide,
   ((c10_first_matching_pattern_wins "http://1.2.3.4:8080" 7).2.1 (by decide)).trans
     (by decide)⟩

end SkillScanner
